import Mathlib

/-!
Verification of the Safe smart-account adapter of permissionless.js.

The development shallowly embeds the TypeScript sources:
  src/accounts/privateKeyToSafeSmartAccount.ts
  packages/permissionless/errors/estimateUserOperationGas.ts
  packages/permissionless/clients/createSmartAccountClient.ts

Conventions of the embedding:
  - Hex strings of bytes become `List Nat` (one entry per byte, each < 256 in
    any run of the original program; the definitions do not depend on that
    bound).
  - Ethereum addresses and 256-bit words become `Nat`; `beBytes k n` is the
    k-byte big-endian rendering used by packed/ABI encoding.
  - `keccak256` is an external cryptographic primitive (a trusted library
    boundary in the specification) and is threaded through every definition
    as an explicit function argument `keccak : List Nat -> List Nat`.
  - Fallible operations return `Except SafeError`.
-/

namespace Permissionless

/-- Errors raised by the embedded code.  Each constructor models one concrete
throw site of the sources: `invalidSignature` is the
`throw new Error("Invalid signature")` of `adjustVInSignature`,
`signTransactionNotSupported` is `SignTransactionNotSupportedBySafeSmartAccount`,
`accountDeploymentNotSupported` is the throw of `encodeDeployCallData`,
`ownerNotFound` is the owner guard of `getAccountInitCode`, and
`unknownNetworkConfiguration` models the TypeError raised by reading a field
of the undefined result of an out-of-table `SAFE_ADDRESSES_MAP` lookup. -/
inductive SafeError where
  | invalidSignature
  | signTransactionNotSupported
  | accountDeploymentNotSupported
  | ownerNotFound
  | unknownNetworkConfiguration
deriving DecidableEq, Repr

/-- The spec groups the two structurally-unsupported operations under one
taxonomy name, `UnsupportedOperationError`. -/
def SafeError.isUnsupportedOperation : SafeError → Bool
  | .signTransactionNotSupported => true
  | .accountDeploymentNotSupported => true
  | _ => false

/-- Big-endian bytes of `n`, exactly `k` bytes (higher bytes of a too-large
`n` are dropped, which never happens for in-range EVM words). -/
def beBytes : Nat → Nat → List Nat
  | 0, _ => []
  | k + 1, n => beBytes k (n / 256) ++ [n % 256]

/-- A 32-byte ABI word, as produced by `encodePacked` for `uint256`. -/
def beWord (n : Nat) : List Nat := beBytes 32 n

/-- Right zero-padding of a byte string to a multiple of 32 bytes. -/
def pad32 (bs : List Nat) : List Nat :=
  bs ++ List.replicate ((32 - bs.length % 32) % 32) 0

/-- Left zero-padding to 32 bytes (viem `pad` with default direction). -/
def padLeft32 (bs : List Nat) : List Nat :=
  List.replicate (32 - bs.length) 0 ++ bs

/-- ABI encoding of a dynamic `bytes` tail: length word then padded payload. -/
def encBytes (bs : List Nat) : List Nat := beWord bs.length ++ pad32 bs

/-- UTF-8 bytes of a string, for hashing function signatures. -/
def strBytes (s : String) : List Nat := s.toUTF8.toList.map (fun b => b.toNat)

/-- 4-byte ABI function selector: first four bytes of the keccak hash of the
canonical signature. -/
def selector (keccak : List Nat → List Nat) (s : String) : List Nat :=
  (keccak (strBytes s)).take 4

/-- The two signing methods distinguished by `adjustVInSignature`. -/
inductive SigningMethod where
  | eth_sign
  | eth_signTypedData
deriving DecidableEq, Repr

/-- Embedding of `adjustVInSignature` (privateKeyToSafeSmartAccount.ts,
lines 93-127).  The source parses the last two hex characters of the
signature as the recovery value v: here the signature is a byte list and v is
its last byte.  An empty signature gives `parseInt` NaN in the source, which
fails the membership test, so it maps to the same error. -/
def adjustVInSignature (signingMethod : SigningMethod) (signature : List Nat) :
    Except SafeError (List Nat) :=
  match signature.getLast? with
  | none => .error .invalidSignature
  | some v =>
    if v ∈ ([0, 1, 27, 28] : List Nat) then
      let v2 :=
        match signingMethod with
        | .eth_sign => (if v < 27 then v + 27 else v) + 4
        | .eth_signTypedData => if v < 27 then v + 27 else v
      .ok (signature.dropLast ++ [v2])
    else
      .error .invalidSignature

/-- C2: for every signature whose final byte decodes to v, plain-message
normalization maps v in {0,1} to v+27+4 and v in {27,28} to v+4; typed-data
normalization maps v < 27 (hence v in {0,1}) to v+27 and leaves v in {27,28}
unchanged; any other v raises the invalid-signature error; in the non-error
cases every byte other than the final one is returned unchanged. -/
theorem safe_adjustVInSignature_normalization (pre : List Nat) (v : Nat) :
    ((v = 0 ∨ v = 1) →
      adjustVInSignature .eth_sign (pre ++ [v]) = .ok (pre ++ [v + 27 + 4]) ∧
      adjustVInSignature .eth_signTypedData (pre ++ [v]) = .ok (pre ++ [v + 27])) ∧
    ((v = 27 ∨ v = 28) →
      adjustVInSignature .eth_sign (pre ++ [v]) = .ok (pre ++ [v + 4]) ∧
      adjustVInSignature .eth_signTypedData (pre ++ [v]) = .ok (pre ++ [v])) ∧
    (¬ (v = 0 ∨ v = 1 ∨ v = 27 ∨ v = 28) →
      ∀ m, adjustVInSignature m (pre ++ [v]) = .error .invalidSignature) :=
  by
    refine ⟨?_, ?_, ?_⟩
    · rintro (rfl | rfl) <;>
        simp [adjustVInSignature]
    · rintro (rfl | rfl) <;>
        simp [adjustVInSignature]
    · intro h m
      have hv : v ∉ ([0, 1, 27, 28] : List Nat) := by
        simpa using h
      cases m <;> simp [adjustVInSignature, hv]

/-- Witness for C2 at concrete inputs: a signature ending in byte 0 under the
plain-message method, and an invalid recovery byte 2. -/
theorem safe_adjustVInSignature_normalization_witness :
    adjustVInSignature .eth_sign [171, 0] = .ok [171, 31] ∧
    adjustVInSignature .eth_signTypedData [171, 2] = .error .invalidSignature :=
  by
    constructor
    · have h := (safe_adjustVInSignature_normalization [171] 0).1 (Or.inl rfl)
      simpa using h.1
    · exact (safe_adjustVInSignature_normalization [171] 2).2.2 (by decide)
        SigningMethod.eth_signTypedData

/-- Embedding of `getInitializerCode` (lines 151-241): the ABI-encoded call
`setup([owner], 1, addModuleLibAddress, enableModules([safe4337ModuleAddress]),
safe4337ModuleAddress, 0, 0, 0)`.  Head words first (offsets 0x100 and 0x140
point at the two dynamic tails, the owner array and the nested
`enableModules` call data), then the tails in argument order. -/
def getInitializerCode (keccak : List Nat → List Nat)
    (owner addModuleLibAddress safe4337ModuleAddress : Nat) : List Nat :=
  let enableModulesData :=
    selector keccak "enableModules(address[])" ++
      beWord 32 ++ beWord 1 ++ beWord safe4337ModuleAddress
  selector keccak "setup(address[],uint256,address,bytes,address,address,uint256,address)" ++
    beWord 256 ++
    beWord 1 ++
    beWord addModuleLibAddress ++
    beWord 320 ++
    beWord safe4337ModuleAddress ++
    beWord 0 ++
    beWord 0 ++
    beWord 0 ++
    (beWord 1 ++ beWord owner) ++
    encBytes enableModulesData

/-- ABI call data for `createProxyWithNonce(_singleton, initializer,
saltNonce)` as encoded inside `getAccountInitCode` (lines 265-299): three head
words (singleton, offset 0x60 of the dynamic initializer, salt nonce) then
the length-prefixed padded initializer. -/
def createProxyWithNonceCallData (keccak : List Nat → List Nat)
    (safeSingletonAddress : Nat) (initializer : List Nat) (saltNonce : Nat) :
    List Nat :=
  selector keccak "createProxyWithNonce(address,bytes,uint256)" ++
    beWord safeSingletonAddress ++
    beWord 96 ++
    beWord saltNonce ++
    encBytes initializer

/-- Embedding of `getAccountInitCode` (lines 243-302).  The owner argument is
an `Option` because the source guards a missing (falsy) owner with
`throw new Error("Owner account not found")`. -/
def getAccountInitCode (keccak : List Nat → List Nat) (owner : Option Nat)
    (addModuleLibAddress safe4337ModuleAddress safeProxyFactoryAddress
      safeSingletonAddress saltNonce : Nat) : Except SafeError (List Nat) :=
  match owner with
  | none => .error .ownerNotFound
  | some o =>
    let initializer := getInitializerCode keccak o addModuleLibAddress
      safe4337ModuleAddress
    .ok (beBytes 20 safeProxyFactoryAddress ++
      createProxyWithNonceCallData keccak safeSingletonAddress initializer
        saltNonce)

/-- viem `getContractAddress` with opcode CREATE2: the last 20 bytes of
`keccak256(0xff ++ from ++ pad(salt, 32) ++ keccak256(bytecode))`. -/
def create2Address (keccak : List Nat → List Nat) (fromAddress : Nat)
    (salt bytecode : List Nat) : List Nat :=
  (keccak ([0xff] ++ beBytes 20 fromAddress ++ padLeft32 salt ++
    keccak bytecode)).drop 12

/-- Embedding of `getAccountAddress` (lines 304-368).  The on-chain read of
`proxyCreationCode` from the factory is an input; everything after the read
is pure.  `encodePacked(["bytes","uint256"], [code, hexToBigInt(singleton)])`
is the byte concatenation with the 32-byte word, and the salt is
`keccak256(keccak256(initializer) ++ saltNonceWord)`. -/
def getAccountAddress (keccak : List Nat → List Nat)
    (proxyCreationCode : List Nat)
    (owner addModuleLibAddress safe4337ModuleAddress safeProxyFactoryAddress
      safeSingletonAddress saltNonce : Nat) : List Nat :=
  let deploymentCode := proxyCreationCode ++ beWord safeSingletonAddress
  let initializer := getInitializerCode keccak owner addModuleLibAddress
    safe4337ModuleAddress
  let salt := keccak (keccak initializer ++ beWord saltNonce)
  create2Address keccak safeProxyFactoryAddress salt deploymentCode

/-- The hex-string length the source inspects in `getInitCode`:
`contractCode?.length ?? 0`, where `contractCode` is the 0x-prefixed hex
rendering of the bytecode read at the account address (two characters of
prefix plus two per byte) or undefined. -/
def bytecodeHexLength : Option (List Nat) → Nat
  | none => 0
  | some bs => 2 + 2 * bs.length

/-- Embedding of the adapter method `getInitCode` (lines 542-557): re-read
the bytecode at the account address (the read result is the `contractCode`
input, fresh on every call, no cached state), return "0x" when code is
present, otherwise the factory-prefixed init code. -/
def getInitCode (keccak : List Nat → List Nat)
    (contractCode : Option (List Nat))
    (owner addModuleLibAddress safe4337ModuleAddress safeProxyFactoryAddress
      safeSingletonAddress saltNonce : Nat) : Except SafeError (List Nat) :=
  if bytecodeHexLength contractCode > 2 then
    .ok []
  else
    getAccountInitCode keccak (some owner) addModuleLibAddress
      safe4337ModuleAddress safeProxyFactoryAddress safeSingletonAddress
      saltNonce

/-- The length of `beBytes k n` is `k`. -/
theorem beBytes_length (k n : Nat) : (beBytes k n).length = k := by
  induction k generalizing n with
  | zero => rfl
  | succ k ih => simp [beBytes, ih]

/-- C1: the counterfactual address returned by `getAccountAddress` equals
CREATE2 with from = the factory address, bytecode = proxyCreationCode
concatenated with the singleton address as a 256-bit word, and salt =
keccak256(keccak256(initializer) concatenated with the salt nonce as a
256-bit word), where initializer is the initializer-builder output for the
configuration. -/
theorem safe_getAccountAddress_is_create2 (keccak : List Nat → List Nat)
    (proxyCreationCode : List Nat)
    (owner addModuleLibAddress safe4337ModuleAddress safeProxyFactoryAddress
      safeSingletonAddress saltNonce : Nat) :
    getAccountAddress keccak proxyCreationCode owner addModuleLibAddress
        safe4337ModuleAddress safeProxyFactoryAddress safeSingletonAddress
        saltNonce =
      create2Address keccak safeProxyFactoryAddress
        (keccak (keccak (getInitializerCode keccak owner addModuleLibAddress
          safe4337ModuleAddress) ++ beWord saltNonce))
        (proxyCreationCode ++ beWord safeSingletonAddress) := rfl

/-- C4: when the bytecode read at the account address renders to more than
the two hex-prefix characters, `getInitCode` returns the empty payload;
otherwise it returns the factory address concatenated with the ABI encoding
of `createProxyWithNonce(singleton, initializer, saltNonce)`, a nonempty byte
string.  The read is an input taken fresh on each call, so a read of empty
bytecode gives the nonempty init code and a subsequent read of nonempty
bytecode gives the empty payload. -/
theorem safe_getInitCode_deployment_check (keccak : List Nat → List Nat)
    (contractCode : Option (List Nat))
    (owner addModuleLibAddress safe4337ModuleAddress safeProxyFactoryAddress
      safeSingletonAddress saltNonce : Nat) (c : Nat) (cs : List Nat) :
    (bytecodeHexLength contractCode > 2 →
      getInitCode keccak contractCode owner addModuleLibAddress
        safe4337ModuleAddress safeProxyFactoryAddress safeSingletonAddress
        saltNonce = .ok []) ∧
    (¬ bytecodeHexLength contractCode > 2 →
      getInitCode keccak contractCode owner addModuleLibAddress
          safe4337ModuleAddress safeProxyFactoryAddress safeSingletonAddress
          saltNonce =
        .ok (beBytes 20 safeProxyFactoryAddress ++
          createProxyWithNonceCallData keccak safeSingletonAddress
            (getInitializerCode keccak owner addModuleLibAddress
              safe4337ModuleAddress) saltNonce) ∧
      ∀ r, getInitCode keccak contractCode owner addModuleLibAddress
          safe4337ModuleAddress safeProxyFactoryAddress safeSingletonAddress
          saltNonce = .ok r → r ≠ []) ∧
    ((∃ r, getInitCode keccak none owner addModuleLibAddress
        safe4337ModuleAddress safeProxyFactoryAddress safeSingletonAddress
        saltNonce = .ok r ∧ r ≠ []) ∧
      getInitCode keccak (some (c :: cs)) owner addModuleLibAddress
        safe4337ModuleAddress safeProxyFactoryAddress safeSingletonAddress
        saltNonce = .ok []) :=
  by
    have hne : ∀ rest : List Nat,
        beBytes 20 safeProxyFactoryAddress ++ rest ≠ [] := by
      intro rest h
      have := congrArg List.length h
      simp [beBytes_length] at this
    refine ⟨?_, ?_, ?_, ?_⟩
    · intro h
      simp [getInitCode, h]
    · intro h
      refine ⟨?_, ?_⟩
      · simp [getInitCode, h, getAccountInitCode]
      · intro r hr
        simp [getInitCode, h, getAccountInitCode] at hr
        exact hr ▸ hne _
    · refine ⟨beBytes 20 safeProxyFactoryAddress ++
        createProxyWithNonceCallData keccak safeSingletonAddress
          (getInitializerCode keccak owner addModuleLibAddress
            safe4337ModuleAddress) saltNonce, ?_, hne _⟩
      simp [getInitCode, bytecodeHexLength, getAccountInitCode]
    · simp [getInitCode, bytecodeHexLength]

/-- Witness for C4 at concrete inputs: a trivial hash function, an account
with two bytes of deployed code, and an account with no code. -/
theorem safe_getInitCode_deployment_check_witness :
    getInitCode (fun _ => []) (some [96, 128]) 7 1 2 3 4 0 = .ok [] ∧
    getInitCode (fun _ => []) none 7 1 2 3 4 0 =
      .ok (beBytes 20 3 ++ createProxyWithNonceCallData (fun _ => []) 4
        (getInitializerCode (fun _ => []) 7 1 2) 0) :=
  by
    constructor
    · exact (safe_getInitCode_deployment_check (fun _ => []) (some [96, 128])
        7 1 2 3 4 0 0 []).1 (by decide)
    · exact ((safe_getInitCode_deployment_check (fun _ => []) none
        7 1 2 3 4 0 0 []).2.1 (by decide)).1

/-- Embedding of the adapter method `signTransaction` (lines 457-459): it
ignores both arguments and always throws. -/
def signTransaction {α β : Type} (_ : α) (_ : β) :
    Except SafeError (List Nat) :=
  .error .signTransactionNotSupported

/-- Embedding of the adapter method `encodeDeployCallData` (lines 558-560):
it ignores its argument and always throws. -/
def encodeDeployCallData {α : Type} (_ : α) : Except SafeError (List Nat) :=
  .error .accountDeploymentNotSupported

/-- C5: for every input (of any type, covering empty and undefined inputs),
`signTransaction` and `encodeDeployCallData` fail with an error of the
unsupported-operation taxonomy and never return a value. -/
theorem safe_unsupported_operations_always_fail {α β γ : Type}
    (a : α) (b : β) (c : γ) :
    signTransaction a b = .error .signTransactionNotSupported ∧
    encodeDeployCallData c = .error .accountDeploymentNotSupported ∧
    SafeError.isUnsupportedOperation .signTransactionNotSupported = true ∧
    SafeError.isUnsupportedOperation .accountDeploymentNotSupported = true ∧
    (∀ r, signTransaction a b ≠ .ok r) ∧
    (∀ r, encodeDeployCallData c ≠ .ok r) :=
  ⟨rfl, rfl, rfl, rfl, fun _ h => by simp [signTransaction] at h,
    fun _ h => by simp [encodeDeployCallData] at h⟩

/-- Witness for C5 at concrete inputs (a number and the unit value standing
for an absent argument). -/
theorem safe_unsupported_operations_always_fail_witness :
    signTransaction (3 : Nat) () = .error .signTransactionNotSupported ∧
    encodeDeployCallData () = .error .accountDeploymentNotSupported :=
  ⟨(safe_unsupported_operations_always_fail (3 : Nat) () ()).1,
    (safe_unsupported_operations_always_fail (3 : Nat) () ()).2.1⟩

/-- A value bound in an EIP-712 message: an address, an unsigned word, or a
byte string. -/
inductive MsgVal where
  | addr (a : Nat)
  | uint (n : Nat)
  | bytes (b : List Nat)
deriving DecidableEq, Repr

/-- An EIP-712 domain as used by this adapter: chain id and verifying
contract. -/
structure Eip712Domain where
  chainId : Nat
  verifyingContract : Nat
deriving DecidableEq, Repr

/-- One `signTypedData`/`hashTypedData` invocation, recorded structurally:
domain, the (name, solidity type) field list of the primary type, the primary
type name, and the message bindings in field order. -/
structure TypedDataCall where
  domain : Eip712Domain
  types : List (String × String)
  primaryType : String
  message : List (String × MsgVal)
deriving DecidableEq, Repr

/-- Embedding of `EIP712_SAFE_OPERATION_TYPE` (lines 29-43), as (name, type)
pairs in source order; the commented-out `signatureTimestamps` field of the
source is absent. -/
def EIP712_SAFE_OPERATION_TYPE : List (String × String) :=
  [("safe", "address"),
   ("callData", "bytes"),
   ("nonce", "uint256"),
   ("preVerificationGas", "uint256"),
   ("verificationGasLimit", "uint256"),
   ("callGasLimit", "uint256"),
   ("maxFeePerGas", "uint256"),
   ("maxPriorityFeePerGas", "uint256"),
   ("entryPoint", "address")]

/-- The ERC-4337 user operation, input-only for the adapter. -/
structure UserOperation where
  sender : Nat
  nonce : Nat
  initCode : List Nat
  callData : List Nat
  callGasLimit : Nat
  verificationGasLimit : Nat
  preVerificationGas : Nat
  maxFeePerGas : Nat
  maxPriorityFeePerGas : Nat
  paymasterAndData : List Nat
  signature : List Nat
deriving DecidableEq, Repr

/-- The typed-data call `signUserOperation` hands to the owner key
(lines 498-520): domain uses the 4337 module address as verifying contract,
primary type SafeOp, message bound from the user operation plus the account
and entry-point addresses. -/
def safeOpCall (chainId safe4337ModuleAddress accountAddress entryPoint : Nat)
    (op : UserOperation) : TypedDataCall :=
  { domain := ⟨chainId, safe4337ModuleAddress⟩
    types := EIP712_SAFE_OPERATION_TYPE
    primaryType := "SafeOp"
    message :=
      [("safe", .addr accountAddress),
       ("callData", .bytes op.callData),
       ("nonce", .uint op.nonce),
       ("preVerificationGas", .uint op.preVerificationGas),
       ("verificationGasLimit", .uint op.verificationGasLimit),
       ("callGasLimit", .uint op.callGasLimit),
       ("maxFeePerGas", .uint op.maxFeePerGas),
       ("maxPriorityFeePerGas", .uint op.maxPriorityFeePerGas),
       ("entryPoint", .addr entryPoint)] }

/-- The SafeMessage typed-data call shared by `signMessage` (lines 434-446)
and `signTypedData` (lines 463-475): domain uses the account address as
verifying contract; `m` is the output of `generateSafeMessageMessage` on the
caller input (an external hash, kept abstract). -/
def safeMessageCall (chainId accountAddress : Nat) (m : List Nat) :
    TypedDataCall :=
  { domain := ⟨chainId, accountAddress⟩
    types := [("message", "bytes")]
    primaryType := "SafeMessage"
    message := [("message", .bytes m)] }

/-- ASCII lowercase of one character code (`toLowerCase` on the hex-address
alphabet). -/
def lowerByte (c : Nat) : Nat := if 65 ≤ c ∧ c ≤ 90 then c + 32 else c

/-- `toLowerCase` of a signer-address string, one character code per entry. -/
def lowerStr (s : List Nat) : List Nat := s.map lowerByte

/-- Strict lexicographic order on character-code strings; on the lowercased
hex-address alphabet this is the order `localeCompare` returns negative on. -/
def lexLt : List Nat → List Nat → Bool
  | [], [] => false
  | [], _ :: _ => true
  | _ :: _, [] => false
  | a :: as, b :: bs =>
    if a < b then true else if b < a then false else lexLt as bs

theorem lexLt_irrefl (a : List Nat) : lexLt a a = false := by
  induction a with
  | nil => rfl
  | cons x xs ih => simp [lexLt, ih]

theorem lexLt_asymm : ∀ a b : List Nat, lexLt a b = true → lexLt b a = false
  | [], [] => by simp [lexLt]
  | [], _ :: _ => by simp [lexLt]
  | _ :: _, [] => by simp [lexLt]
  | a :: as, b :: bs => by
    intro h
    simp only [lexLt] at h ⊢
    rcases Nat.lt_trichotomy a b with hab | hab | hab
    · simp [hab, Nat.lt_asymm hab, Nat.ne_of_gt hab]
    · subst hab
      simp only [Nat.lt_irrefl, if_false] at h ⊢
      exact lexLt_asymm as bs h
    · simp [hab, Nat.lt_asymm hab] at h

theorem lexLt_trans : ∀ a b c : List Nat,
    lexLt a b = true → lexLt b c = true → lexLt a c = true
  | [], b, c => by cases b <;> cases c <;> simp [lexLt]
  | _ :: _, [], _ => by simp [lexLt]
  | _ :: _, _ :: _, [] => by simp [lexLt]
  | a :: as, b :: bs, c :: cs => by
    intro h1 h2
    simp only [lexLt] at h1 h2 ⊢
    rcases Nat.lt_trichotomy a b with hab | hab | hab
    · rcases Nat.lt_trichotomy b c with hbc | hbc | hbc
      · simp [Nat.lt_trans hab hbc]
      · subst hbc; simp [hab]
      · simp [hbc, Nat.lt_asymm hbc] at h2
    · subst hab
      simp only [Nat.lt_irrefl, if_false] at h1
      rcases Nat.lt_trichotomy a c with hac | hac | hac
      · simp [hac]
      · subst hac
        simp only [Nat.lt_irrefl, if_false] at h2 ⊢
        exact lexLt_trans as bs cs h1 h2
      · simp [hac, Nat.lt_asymm hac] at h2
    · simp [hab, Nat.lt_asymm hab] at h1

theorem lexLt_connex : ∀ a b : List Nat,
    lexLt a b = false → lexLt b a = false → a = b
  | [], [] => by simp
  | [], _ :: _ => by simp [lexLt]
  | _ :: _, [] => by simp [lexLt]
  | a :: as, b :: bs => by
    intro h1 h2
    simp only [lexLt] at h1 h2
    rcases Nat.lt_trichotomy a b with hab | hab | hab
    · simp [hab] at h1
    · subst hab
      simp only [Nat.lt_irrefl, if_false] at h1 h2
      exact congrArg (a :: ·) (lexLt_connex as bs h1 h2)
    · simp [hab] at h2

/-- A signer/signature pair of the `signatures` array of `signUserOperation`:
the signer address as a character-code string and the signature bytes. -/
def SigPair : Type := List Nat × List Nat

/-- The sort comparator of lines 524-528 read as a non-strict order: pair `p`
may precede pair `q` when `q.signer.toLowerCase()` does not compare strictly
below `p.signer.toLowerCase()`. -/
def signerLe (p q : SigPair) : Prop :=
  lexLt (lowerStr q.1) (lowerStr p.1) = false

instance : DecidableRel signerLe := fun p q =>
  inferInstanceAs (Decidable (lexLt (lowerStr q.1) (lowerStr p.1) = false))

instance : IsTotal SigPair signerLe :=
  ⟨fun p q => by
    by_cases h : lexLt (lowerStr q.1) (lowerStr p.1) = true
    · exact Or.inr (lexLt_asymm _ _ h)
    · exact Or.inl (Bool.eq_false_iff.mpr h)⟩

instance : IsTrans SigPair signerLe :=
  ⟨fun p q r h1 h2 => by
    unfold signerLe at h1 h2 ⊢
    by_cases hrp : lexLt (lowerStr r.1) (lowerStr p.1) = true
    · by_cases hpq : lexLt (lowerStr p.1) (lowerStr q.1) = true
      · exact absurd (lexLt_trans _ _ _ hrp hpq) (Bool.eq_false_iff.mp h2)
      · have heq := lexLt_connex _ _ (Bool.eq_false_iff.mpr hpq) h1
        rw [heq] at hrp
        exact absurd hrp (Bool.eq_false_iff.mp h2)
    · exact Bool.eq_false_iff.mpr hrp⟩

/-- Embedding of `signatures.sort(...)` (lines 524-528): a stable sort,
ascending under the case-insensitive lexicographic comparison of the signer
addresses, as the ECMAScript `Array.prototype.sort` contract requires. -/
def sortSignatures (sigs : List SigPair) : List SigPair :=
  List.insertionSort signerLe sigs

/-- Embedding of lines 530-533: starting from the empty payload, append the
signature bytes of each sorted pair in order. -/
def concatSignatures (sigs : List SigPair) : List Nat :=
  (sortSignatures sigs).foldl (fun acc p => acc ++ p.2) []

theorem foldl_append_eq_flatten (l : List SigPair) (acc : List Nat) :
    l.foldl (fun a p => a ++ p.2) acc = acc ++ (l.map Prod.snd).flatten := by
  induction l generalizing acc with
  | nil => simp
  | cons x xs ih => simp [ih, List.append_assoc]

/-- Embedding of the adapter method `signUserOperation` (lines 492-541).
The owner key signing call is the abstract input `signTypedDataPrim`; the
source builds the one-element signer/signature array, sorts it, and
concatenates the signature bytes with no further processing. -/
def signUserOperation (signTypedDataPrim : TypedDataCall → List Nat)
    (signerAddress : List Nat)
    (chainId safe4337ModuleAddress accountAddress entryPoint : Nat)
    (op : UserOperation) : List Nat :=
  concatSignatures
    [(signerAddress,
      signTypedDataPrim
        (safeOpCall chainId safe4337ModuleAddress accountAddress entryPoint
          op))]

/-- Embedding of the adapter method `signMessage` (lines 433-456):
`hashTypedDataPrim` is viem `hashTypedData`, `signRawPrim` is the owner key
signing the raw hash, and `m` is the `generateSafeMessageMessage` output for
the caller message; the raw signature is passed through the v-normalizer
with the plain-message method. -/
def signMessage (hashTypedDataPrim : TypedDataCall → List Nat)
    (signRawPrim : List Nat → List Nat) (chainId accountAddress : Nat)
    (m : List Nat) : Except SafeError (List Nat) :=
  adjustVInSignature .eth_sign
    (signRawPrim (hashTypedDataPrim (safeMessageCall chainId accountAddress m)))

/-- Embedding of the adapter method `signTypedData` (lines 460-477): the
owner key signs the SafeMessage wrapper directly and the result is passed
through the v-normalizer with the typed-data method. -/
def signTypedData (signTypedDataPrim : TypedDataCall → List Nat)
    (chainId accountAddress : Nat) (m : List Nat) :
    Except SafeError (List Nat) :=
  adjustVInSignature .eth_signTypedData
    (signTypedDataPrim (safeMessageCall chainId accountAddress m))

theorem concatSignatures_singleton (a : List Nat) (d : List Nat) :
    concatSignatures [(a, d)] = d := by
  simp [concatSignatures, sortSignatures, List.insertionSort,
    List.orderedInsert]

/-- C3: `signUserOperation` signs an EIP-712 SafeOp structure whose field
list is exactly [safe:address, callData:bytes, nonce:uint256,
preVerificationGas:uint256, verificationGasLimit:uint256,
callGasLimit:uint256, maxFeePerGas:uint256, maxPriorityFeePerGas:uint256,
entryPoint:address] under the domain {chainId, verifyingContract = the 4337
module address}, while the SafeMessage calls of `signMessage` and
`signTypedData` use the account address as verifying contract. -/
theorem safe_signUserOperation_typed_data_shape
    (signTypedDataPrim : TypedDataCall → List Nat) (signerAddress : List Nat)
    (chainId safe4337ModuleAddress accountAddress entryPoint : Nat)
    (op : UserOperation) (m : List Nat) :
    signUserOperation signTypedDataPrim signerAddress chainId
        safe4337ModuleAddress accountAddress entryPoint op =
      signTypedDataPrim (safeOpCall chainId safe4337ModuleAddress
        accountAddress entryPoint op) ∧
    (safeOpCall chainId safe4337ModuleAddress accountAddress entryPoint
        op).types =
      [("safe", "address"), ("callData", "bytes"), ("nonce", "uint256"),
       ("preVerificationGas", "uint256"), ("verificationGasLimit", "uint256"),
       ("callGasLimit", "uint256"), ("maxFeePerGas", "uint256"),
       ("maxPriorityFeePerGas", "uint256"), ("entryPoint", "address")] ∧
    (safeOpCall chainId safe4337ModuleAddress accountAddress entryPoint
        op).primaryType = "SafeOp" ∧
    (safeOpCall chainId safe4337ModuleAddress accountAddress entryPoint
        op).domain = ⟨chainId, safe4337ModuleAddress⟩ ∧
    (safeMessageCall chainId accountAddress m).domain =
      ⟨chainId, accountAddress⟩ :=
  ⟨concatSignatures_singleton _ _, rfl, rfl, rfl, rfl⟩

/-- C7: the bytes `signUserOperation` returns are the concatenation of the
signature bytes of the signer/signature pairs taken in ascending
case-insensitive lexicographic order of the signer addresses (the sorted
list is a permutation of the input, pairwise ordered); for two pairs whose
addresses differ only by casing the order is the stable original one, and
when one lowercased address compares strictly below the other the strictly
smaller one comes first whichever way the input was ordered. -/
theorem safe_signature_concat_ordering (sigs : List SigPair) (p q : SigPair) :
    concatSignatures sigs = ((sortSignatures sigs).map Prod.snd).flatten ∧
    List.Perm (sortSignatures sigs) sigs ∧
    (sortSignatures sigs).Pairwise signerLe ∧
    (lowerStr p.1 = lowerStr q.1 →
      sortSignatures [p, q] = [p, q] ∧
      concatSignatures [p, q] = p.2 ++ q.2) ∧
    (lexLt (lowerStr p.1) (lowerStr q.1) = true →
      concatSignatures [p, q] = p.2 ++ q.2 ∧
      concatSignatures [q, p] = p.2 ++ q.2) :=
  by
    refine ⟨?_, ?_, ?_, ?_, ?_⟩
    · simpa using foldl_append_eq_flatten (sortSignatures sigs) []
    · exact List.perm_insertionSort signerLe sigs
    · exact List.sorted_insertionSort signerLe sigs
    · intro h
      have hle : signerLe p q := by
        unfold signerLe
        rw [← h]
        exact lexLt_irrefl _
      constructor
      · simp [sortSignatures, List.insertionSort, List.orderedInsert, hle]
      · simp [concatSignatures, sortSignatures, List.insertionSort,
          List.orderedInsert, hle]
    · intro h
      have hle : signerLe p q := lexLt_asymm _ _ h
      have hnle : ¬ signerLe q p := by
        unfold signerLe
        simp [h]
      constructor
      · simp [concatSignatures, sortSignatures, List.insertionSort,
          List.orderedInsert, hle]
      · simp [concatSignatures, sortSignatures, List.insertionSort,
          List.orderedInsert, hnle]

/-- Witness for C7 at concrete pairs: addresses "A" and "a" (equal after
lowercasing, stable original order) and addresses "b" and "A" (the
lowercased smaller address comes first even given last). -/
theorem safe_signature_concat_ordering_witness :
    concatSignatures [(([65] : List Nat), ([1] : List Nat)), ([97], [2])] =
      [1, 2] ∧
    concatSignatures [(([98] : List Nat), ([5] : List Nat)), ([65], [6])] =
      [6, 5] :=
  by
    constructor
    · have h := ((safe_signature_concat_ordering [] ([65], [1])
        ([97], [2])).2.2.2.1 (by decide)).2
      simpa using h
    · have h := ((safe_signature_concat_ordering [] ([65], [6])
        ([98], [5])).2.2.2.2 (by decide)).2
      simpa using h

/-- C10: the signature `signUserOperation` returns is the raw typed-data
signature the owner key produced, with no v-normalization (its final byte is
the final byte of the signer output), while `signMessage` and `signTypedData`
both pass their raw signatures through the v-normalizer before returning. -/
theorem safe_signUserOperation_raw_signature
    (signTypedDataPrim hashTypedDataPrim : TypedDataCall → List Nat)
    (signRawPrim : List Nat → List Nat) (signerAddress : List Nat)
    (chainId safe4337ModuleAddress accountAddress entryPoint : Nat)
    (op : UserOperation) (m : List Nat) :
    signUserOperation signTypedDataPrim signerAddress chainId
        safe4337ModuleAddress accountAddress entryPoint op =
      signTypedDataPrim (safeOpCall chainId safe4337ModuleAddress
        accountAddress entryPoint op) ∧
    (signUserOperation signTypedDataPrim signerAddress chainId
        safe4337ModuleAddress accountAddress entryPoint op).getLast? =
      (signTypedDataPrim (safeOpCall chainId safe4337ModuleAddress
        accountAddress entryPoint op)).getLast? ∧
    signMessage hashTypedDataPrim signRawPrim chainId accountAddress m =
      adjustVInSignature .eth_sign
        (signRawPrim (hashTypedDataPrim
          (safeMessageCall chainId accountAddress m))) ∧
    signTypedData signTypedDataPrim chainId accountAddress m =
      adjustVInSignature .eth_signTypedData
        (signTypedDataPrim (safeMessageCall chainId accountAddress m)) :=
  ⟨concatSignatures_singleton _ _,
    congrArg List.getLast? (concatSignatures_singleton _ _), rfl, rfl⟩

/-- One entry of `SAFE_ADDRESSES_MAP` (lines 45-75). -/
structure NetworkAddresses where
  ADD_MODULES_LIB_ADDRESS : Nat
  SAFE_4337_MODULE_ADDRESS : Nat
  SAFE_PROXY_FACTORY_ADDRESS : Nat
  SAFE_SINGLETON_ADDRESS : Nat
deriving DecidableEq, Repr

/-- Embedding of `SAFE_ADDRESSES_MAP`: version "1.4.1" holds entries for the
chain-id strings "11155111" and "5" (with identical addresses), nothing
else; any other key pair is the undefined JS lookup, here `none`. -/
def SAFE_ADDRESSES_MAP (safeVersion chainIdString : String) :
    Option NetworkAddresses :=
  if safeVersion = "1.4.1" then
    if chainIdString = "11155111" then
      some ⟨0x191EFDC03615B575922289DC339F4c70aC5C30Af,
            0x39E54Bb2b3Aa444b4B39DEe15De3b7809c36Fc38,
            0x4e1DCf7AD4e460CfD30791CCC4F9c8a4f820ec67,
            0x41675C099F32341bf84BFc5382aF534df5C7461a⟩
    else if chainIdString = "5" then
      some ⟨0x191EFDC03615B575922289DC339F4c70aC5C30Af,
            0x39E54Bb2b3Aa444b4B39DEe15De3b7809c36Fc38,
            0x4e1DCf7AD4e460CfD30791CCC4F9c8a4f820ec67,
            0x41675C099F32341bf84BFc5382aF534df5C7461a⟩
    else none
  else none

/-- One resolved configuration field (lines 405-417): the caller override
when supplied, otherwise the field of the table entry; reading a field of an
absent entry is the TypeError on undefined, modelled as the
unknown-network-configuration error. -/
def lookupField (override : Option Nat) (entry : Option NetworkAddresses)
    (field : NetworkAddresses → Nat) : Except SafeError Nat :=
  match override with
  | some a => .ok a
  | none =>
    match entry with
    | some e => .ok (field e)
    | none => .error .unknownNetworkConfiguration

/-- Embedding of the four address resolutions of
`privateKeyToSafeSmartAccount` (lines 405-417), evaluated in source order. -/
def resolveSafeAddresses (safeVersion chainIdString : String)
    (ovAddModuleLib ovSafe4337Module ovProxyFactory ovSingleton : Option Nat) :
    Except SafeError NetworkAddresses :=
  let entry := SAFE_ADDRESSES_MAP safeVersion chainIdString
  do
    let a ← lookupField ovAddModuleLib entry (·.ADD_MODULES_LIB_ADDRESS)
    let m ← lookupField ovSafe4337Module entry (·.SAFE_4337_MODULE_ADDRESS)
    let f ← lookupField ovProxyFactory entry (·.SAFE_PROXY_FACTORY_ADDRESS)
    let s ← lookupField ovSingleton entry (·.SAFE_SINGLETON_ADDRESS)
    .ok ⟨a, m, f, s⟩

/-- The chain I/O operations `privateKeyToSafeSmartAccount` performs up to
and including address derivation. -/
inductive ChainRpc where
  | getChainIdCall
  | readProxyCreationCodeCall
deriving DecidableEq, Repr

/-- Embedding of the construction order of `privateKeyToSafeSmartAccount`
(lines 400-429): the chain id is fetched from the chain first (line 402, an
RPC call), the address table is consulted next (lines 405-417), and only a
successful resolution proceeds to the `proxyCreationCode` contract read
inside `getAccountAddress`.  The result pairs the chain I/O performed with
the resolution outcome. -/
def privateKeyToSafeSmartAccountTrace (chainId : Nat) (safeVersion : String)
    (ovAddModuleLib ovSafe4337Module ovProxyFactory ovSingleton : Option Nat) :
    List ChainRpc × Except SafeError NetworkAddresses :=
  let chainIdString := toString chainId
  match resolveSafeAddresses safeVersion chainIdString ovAddModuleLib
      ovSafe4337Module ovProxyFactory ovSingleton with
  | .error e => ([ChainRpc.getChainIdCall], .error e)
  | .ok cfg =>
    ([ChainRpc.getChainIdCall, ChainRpc.readProxyCreationCodeCall], .ok cfg)

/-- Counterexample to C6 as stated: on chain id 1 (no table entry, no
overrides) construction does fail, but the failure is surfaced only after
the chain-id RPC read, so it is not surfaced before any chain I/O is
attempted. -/
theorem safe_unknown_network_io_counterexample :
    (privateKeyToSafeSmartAccountTrace 1 "1.4.1" none none none none).2 =
      .error .unknownNetworkConfiguration ∧
    ChainRpc.getChainIdCall ∈
      (privateKeyToSafeSmartAccountTrace 1 "1.4.1" none none none none).1 :=
  ⟨rfl, by decide⟩

/-- C6 amended: for every (safeVersion, chainId) pair with no entry in the
address table and no overrides supplied, construction fails with the
unknown-network-configuration failure, and the only chain I/O attempted
before the failure is the chain-id read that produced the looked-up chain id
(in particular no proxy-creation-code read and no bytecode read happens). -/
theorem safe_unknown_network_failure_amended (chainId : Nat)
    (safeVersion : String)
    (h : SAFE_ADDRESSES_MAP safeVersion (toString chainId) = none) :
    privateKeyToSafeSmartAccountTrace chainId safeVersion none none none
        none =
      ([ChainRpc.getChainIdCall], .error .unknownNetworkConfiguration) :=
  by
    simp [privateKeyToSafeSmartAccountTrace, resolveSafeAddresses, h,
      lookupField, Bind.bind, Except.bind]

/-- Witness for the amended C6 at chain id 1. -/
theorem safe_unknown_network_failure_amended_witness :
    SAFE_ADDRESSES_MAP "1.4.1" (toString 1) = none ∧
    privateKeyToSafeSmartAccountTrace 1 "1.4.1" none none none none =
      ([ChainRpc.getChainIdCall], .error .unknownNetworkConfiguration) :=
  ⟨by decide, safe_unknown_network_failure_amended 1 "1.4.1" (by decide)⟩

/-- A viem `BaseError` as far as this layer inspects it: the short message
and the optional meta-message list. -/
structure BaseErrModel where
  shortMessage : String
  metaMessages : Option (List String)
deriving DecidableEq, Repr

/-- The `EstimateUserOperationGasError` wrapper: the fields its `super` call
sets plus the retained cause. -/
structure EstimateGasErrModel where
  shortMessage : String
  metaMessages : Option (List String)
  cause : BaseErrModel
deriving DecidableEq, Repr

/-- Embedding of the `EstimateUserOperationGasError` constructor
(estimateUserOperationGas.ts, lines 18-53): the wrapper message is the cause
short message; the meta messages are the cause meta messages (when the field
is present) followed by a single-space separator, then the header and the
pretty-printed argument dump, the whole list passed through
`.filter(Boolean)`, which drops empty strings. -/
def mkEstimateUserOperationGasError (cause : BaseErrModel)
    (prettyArgs : String) : EstimateGasErrModel :=
  { shortMessage := cause.shortMessage
    metaMessages :=
      some
        (((match cause.metaMessages with
            | some ms => ms ++ [" "]
            | none => []) ++
          ["Estimate Gas Arguments:", prettyArgs]).filter
          (fun s => !s.isEmpty))
    cause := cause }

/-- Modelled from the spec: the `prettyPrint` helper of
packages/permissionless/errors/utils is not among the provided sources; the
spec describes its output only as the full user-operation field dump, so the
renderer is kept as an arbitrary function of the dumped user operation and
entry point. -/
def estimateUserOperationGasError
    (prettyPrint : UserOperation → Nat → String) (cause : BaseErrModel)
    (op : UserOperation) (entryPoint : Nat) : EstimateGasErrModel :=
  mkEstimateUserOperationGasError cause (prettyPrint op entryPoint)

/-- A concrete user operation with all fields zeroed, for closed
evaluations. -/
def uopZero : UserOperation :=
  ⟨0, 0, [], [], 0, 0, 0, 0, 0, [], []⟩

/-- Counterexample to C8 as stated: a cause whose meta messages consist of
the single empty string.  The wrapper drops that original meta message (the
constructor filters falsy strings), so its meta messages do not include all
of the cause meta messages. -/
theorem estimateGasError_empty_meta_counterexample :
    ("" ∈ (BaseErrModel.mk "boom" (some [""])).metaMessages.getD []) ∧
    ¬ ("" ∈
      (estimateUserOperationGasError (fun _ _ => "pp")
        (BaseErrModel.mk "boom" (some [""])) uopZero 0).metaMessages.getD
        []) :=
  by decide

/-- C8 amended: for every cause, user operation and renderer, the wrapper
takes its message from the cause short message, retains the cause object
unmodified, and its meta messages are all the nonempty original cause meta
messages (empty strings are filtered out), then a space separator when the
cause had a meta-message field, then the argument-dump header and the
user-operation field dump (the dump itself omitted when it renders empty). -/
theorem estimateGasError_enrichment_amended
    (prettyPrint : UserOperation → Nat → String) (cause : BaseErrModel)
    (op : UserOperation) (entryPoint : Nat) :
    (estimateUserOperationGasError prettyPrint cause op
        entryPoint).shortMessage = cause.shortMessage ∧
    (estimateUserOperationGasError prettyPrint cause op entryPoint).cause =
      cause ∧
    (estimateUserOperationGasError prettyPrint cause op
        entryPoint).metaMessages =
      some
        ((match cause.metaMessages with
          | some ms => ms.filter (fun s => !s.isEmpty) ++ [" "]
          | none => []) ++
         (["Estimate Gas Arguments:"] ++
          (if (prettyPrint op entryPoint).isEmpty then []
           else [prettyPrint op entryPoint]))) :=
  by
    refine ⟨rfl, rfl, ?_⟩
    have hEGA : ("Estimate Gas Arguments:".isEmpty) = false := by decide
    have hSp : (" ".isEmpty) = false := by decide
    simp only [estimateUserOperationGasError, mkEstimateUserOperationGasError]
    cases h : cause.metaMessages with
    | none =>
      by_cases hp : (prettyPrint op entryPoint).isEmpty <;>
        simp [List.filter_append, List.filter_cons, hEGA, hSp, hp]
    | some ms =>
      by_cases hp : (prettyPrint op entryPoint).isEmpty <;>
        simp [List.filter_append, List.filter_cons, hEGA, hSp, hp]

/-- The options viem hands a transport factory when a client is created. -/
structure TransportOptions where
  chain : Option Nat
  pollingInterval : Option Nat
  retryCount : Nat
  timeout : Option Nat
deriving DecidableEq, Repr

/-- The client record built by `createSmartAccountClient`
(createSmartAccountClient.ts, lines 89-108) as far as this layer shapes it:
key and name defaults, the client type tag, and the wrapped transport. -/
structure SmartAccountClientModel (β : Type) where
  key : String
  name : String
  clientType : String
  transport : TransportOptions → β

/-- Embedding of `createSmartAccountClient` (lines 89-101): the transport
passed to `createClient` spreads the incoming options and overrides
`retryCount` with 0 before invoking the caller transport. -/
def createSmartAccountClient {β : Type} (transport : TransportOptions → β)
    (key name : Option String) : SmartAccountClientModel β :=
  { key := key.getD "Account"
    name := name.getD "Smart Account Client"
    clientType := "smartAccountClient"
    transport := fun opts => transport { opts with retryCount := 0 } }

/-- C9: the client built by `createSmartAccountClient` always invokes the
underlying transport with retryCount 0: whatever retry count the incoming
options carry, the underlying transport observes retryCount 0 with every
other option field passed through unchanged. -/
theorem smartAccountClient_transport_retryCount_zero {β : Type}
    (transport : TransportOptions → β) (key name : Option String)
    (opts : TransportOptions) (n : Nat) :
    (createSmartAccountClient transport key name).transport opts =
      transport { opts with retryCount := 0 } ∧
    (createSmartAccountClient transport key name).transport
        { opts with retryCount := n } =
      (createSmartAccountClient transport key name).transport
        { opts with retryCount := 0 } ∧
    ((createSmartAccountClient id key name).transport opts).retryCount = 0 ∧
    ((createSmartAccountClient id key name).transport opts).chain =
      opts.chain ∧
    ((createSmartAccountClient id key name).transport
        opts).pollingInterval = opts.pollingInterval ∧
    ((createSmartAccountClient id key name).transport opts).timeout =
      opts.timeout :=
  ⟨rfl, rfl, rfl, rfl, rfl, rfl⟩

end Permissionless

